import Mathlib

/-!
Verification of the marketplace backend (professionals, bookings, reviews,
comments, response cache) against its natural-language specification.

The definitions below are a shallow embedding of the JavaScript source:

* appointment model and controller (`src/server/Models/professional.js`,
  appointment controller): `canCancel`, `updateStatus`, `findOverlapping`,
  `createAppointment`;
* rating aggregation hooks of the review and comment models
  (`reviewSchema.post('save'/'remove')`, `commentSchema.post('save')`) and the
  review/comment controller operations driving them;
* the response-cache middleware (`cacheMiddleware`, `clearCache`,
  `cacheHelpers.invalidateResource`, `cacheConditions.onlyGet`).

Times are modelled in integer milliseconds, ratings as rationals.  JavaScript
floating-point division by zero (NaN) is modelled by `JsNum.nan`.
-/

/-! ## Appointment model -/

/-- Status enum of the appointment schema:
`enum: ['pending', 'confirmed', 'completed', 'cancelled']`. -/
inductive AppointmentStatus
  | pending
  | confirmed
  | completed
  | cancelled
deriving DecidableEq, Repr

/-- Appointment document.  Times are epoch milliseconds (JS `Date.getTime()`).
Fields not touched by the verified code paths (notes, price, reminders, ...)
are omitted. -/
structure Appointment where
  professional : Nat
  client : Nat
  service : Nat
  startTime : Int
  endTime : Int
  status : AppointmentStatus
deriving DecidableEq, Repr

/-- Difference in whole hours: the millisecond difference divided by 3600000,
truncated toward zero — what `moment(startTime).diff(moment(), 'hours')`
computes.  Written for stating the specification's 24-hour cancellation rule
in the claims; the source's own call site never executes (see `canCancel`). -/
def hoursDiff (startTime now : Int) : Int :=
  Int.tdiv (startTime - now) 3600000

/-- Embedding of `appointmentSchema.methods.canCancel`:
`this.status === 'pending' && moment(this.startTime).diff(moment(), 'hours') >= 24`.
The appointment model module requires only `mongoose`; `moment` is unbound
there (not required, not a global, not a dependency).  On a non-pending
appointment the conjunction short-circuits to `false` before `moment` is
touched; on a pending appointment evaluating `moment(this.startTime)` throws
a ReferenceError, modelled as `Except.error`. -/
def canCancel (a : Appointment) : Except Unit Bool :=
  if a.status == .pending then .error ()
  else .ok false

/-- Embedding of `appointmentController.updateStatus` (validation and state
change only; notification and calendar side effects are external).  The
guard `if (status === 'cancelled' && !appointment.canCancel())` answers 400
"Cannot cancel appointment"; when `canCancel` throws (the unbound-moment
ReferenceError on pending appointments) the controller's surrounding catch
answers 500 "Failed to update appointment"; in the remaining cases the
requested status is assigned and saved. -/
def updateStatus (a : Appointment) (req : AppointmentStatus) :
    Except String Appointment :=
  if req == .cancelled then
    match canCancel a with
    | .error _ => .error "Failed to update appointment"
    | .ok allowed =>
        if !allowed then .error "Cannot cancel appointment"
        else .ok { a with status := req }
  else
    .ok { a with status := req }

/-- Transition relation of the specification's finite state machine:
pending→confirmed, pending→cancelled, confirmed→completed,
confirmed→cancelled.  Written from the spec for comparison with
`updateStatus`. -/
def specAllowedTransition (cur req : AppointmentStatus) : Bool :=
  match cur, req with
  | .pending, .confirmed => true
  | .pending, .cancelled => true
  | .confirmed, .completed => true
  | .confirmed, .cancelled => true
  | _, _ => false

/-- Embedding of `Appointment.findOverlapping`: appointments of the
professional with `status: { $nin: ['cancelled'] }` and
`startTime < endTime && endTime > startTime` (strict interval overlap). -/
def findOverlapping (apts : List Appointment) (professionalId : Nat)
    (startTime endTime : Int) : List Appointment :=
  apts.filter (fun a =>
    a.professional == professionalId &&
    !(a.status == .cancelled) &&
    decide (a.startTime < endTime) &&
    decide (a.endTime > startTime))

/-- Embedding of `appointmentController.create` (availability decision and
insert; professional/service lookup assumed successful, their ids and the
service duration given).  `endTime = moment(startTime).add(duration,
'minutes')`; the request is rejected when `overlapping.length > 0`; otherwise
the appointment is saved, its `endTime` recomputed by the pre-save hook as
`startTime + service.duration * 60000`. -/
def createAppointment (apts : List Appointment)
    (professionalId clientId serviceId : Nat)
    (durationMinutes : Nat) (startTime : Int) :
    Except String (List Appointment) :=
  let endTime := startTime + durationMinutes * 60000
  let overlapping := findOverlapping apts professionalId startTime endTime
  if overlapping.length > 0 then
    .error "Time slot is not available"
  else
    .ok (apts ++ [{ professional := professionalId, client := clientId,
                    service := serviceId, startTime := startTime,
                    endTime := endTime, status := .pending }])

/-! ## Rating aggregation -/

/-- JavaScript number that may be NaN (result of `0 / 0`). -/
inductive JsNum
  | nan
  | num (q : ℚ)
deriving DecidableEq, Repr

/-- JavaScript division of a sum by a count: NaN when the count is zero
(the only zero-divisor case arising here has a zero numerator). -/
def jsDiv (s : ℚ) (n : Nat) : JsNum :=
  if n = 0 then .nan else .num (s / n)

/-- Professional document, restricted to the aggregate fields.  The schema
declares `rating` (default 0) and `totalRatings` (default 0); it has no
`reviewCount` path, so mongoose strict mode drops assignments to it. -/
structure ProfessionalDoc where
  id : Nat
  rating : JsNum
  totalRatings : Nat
deriving DecidableEq, Repr

/-- Review document (review schema: `userId`, `professionalId`, `rating`). -/
structure ReviewDoc where
  id : Nat
  userId : Nat
  professionalId : Nat
  rating : ℚ
deriving DecidableEq, Repr

/-- Comment document (comment schema: `user`, `professional`, `rating`,
`isBlocked` default false). -/
structure CommentDoc where
  id : Nat
  user : Nat
  professional : Nat
  rating : ℚ
  isBlocked : Bool
deriving DecidableEq, Repr

/-- Database state relevant to rating aggregation. -/
structure RatingState where
  professionals : List ProfessionalDoc
  reviews : List ReviewDoc
  comments : List CommentDoc
deriving DecidableEq, Repr

/-- Query `Review.find({ professionalId })`. -/
def reviewsFor (reviews : List ReviewDoc) (professionalId : Nat) :
    List ReviewDoc :=
  reviews.filter (fun r => r.professionalId == professionalId)

/-- JS `reviews.reduce((acc, review) => acc + review.rating, 0)`. -/
def sumReviewRatings (rs : List ReviewDoc) : ℚ :=
  rs.foldl (fun acc r => acc + r.rating) 0

/-- Query `Comment.find({ professional, isBlocked: false })`. -/
def commentsNonBlockedFor (comments : List CommentDoc)
    (professionalId : Nat) : List CommentDoc :=
  comments.filter (fun c => c.professional == professionalId && !c.isBlocked)

/-- JS `comments.reduce((sum, comment) => sum + comment.rating, 0)`. -/
def sumCommentRatings (cs : List CommentDoc) : ℚ :=
  cs.foldl (fun acc c => acc + c.rating) 0

/-- Write-back `Professional.findByIdAndUpdate(pid, {rating, totalRatings})`. -/
def writeAggregate (ps : List ProfessionalDoc) (pid : Nat)
    (rating : JsNum) (totalRatings : Nat) : List ProfessionalDoc :=
  ps.map (fun p =>
    if p.id == pid then { p with rating := rating, totalRatings := totalRatings }
    else p)

/-- Embedding of `reviewSchema.post('save')`: re-reads all reviews of the
professional, `averageRating = sum / totalRatings` (unguarded), writes
`{rating, totalRatings}` back. -/
def reviewPostSave (st : RatingState) (pid : Nat) : RatingState :=
  let reviews := reviewsFor st.reviews pid
  let totalRatings := reviews.length
  let averageRating := jsDiv (sumReviewRatings reviews) totalRatings
  { st with professionals :=
      writeAggregate st.professionals pid averageRating totalRatings }

/-- Embedding of `reviewSchema.post('remove')`: as the save hook but the
average is guarded, `totalRatings > 0 ? sum / totalRatings : 0`. -/
def reviewPostRemove (st : RatingState) (pid : Nat) : RatingState :=
  let reviews := reviewsFor st.reviews pid
  let totalRatings := reviews.length
  let averageRating :=
    if totalRatings > 0 then jsDiv (sumReviewRatings reviews) totalRatings
    else JsNum.num 0
  { st with professionals :=
      writeAggregate st.professionals pid averageRating totalRatings }

/-- Embedding of `commentSchema.post('save')`: loads the professional (no-op
when absent), re-reads the non-blocked comments, sets
`professional.rating = totalRating / comments.length` (unguarded) and
`professional.reviewCount = comments.length`, then saves.  `reviewCount` is
not a schema path, so strict mode drops it and `totalRatings` is untouched. -/
def commentPostSave (st : RatingState) (pid : Nat) : RatingState :=
  let comments := commentsNonBlockedFor st.comments pid
  let newRating := jsDiv (sumCommentRatings comments) comments.length
  { st with professionals :=
      st.professionals.map (fun p =>
        if p.id == pid then { p with rating := newRating } else p) }

/-- Update of the first review matching `_id` and `userId`
(`Review.findOne({_id, userId})` followed by mutating `rating` and saving). -/
def updateFirstReview (rs : List ReviewDoc) (id userId : Nat) (rating : ℚ) :
    List ReviewDoc :=
  match rs with
  | [] => []
  | r :: rest =>
      if r.id == id && r.userId == userId then { r with rating := rating } :: rest
      else r :: updateFirstReview rest id userId rating

/-- Removal of the first review matching `_id` and `userId`
(`review.remove()` on the found document). -/
def removeFirstReview (rs : List ReviewDoc) (id userId : Nat) :
    List ReviewDoc :=
  match rs with
  | [] => []
  | r :: rest =>
      if r.id == id && r.userId == userId then rest
      else r :: removeFirstReview rest id userId

/-- Update of the first comment matching `_id` (`Comment.findById` then
`if (rating) comment.rating = rating` — a zero rating is falsy and skipped —
and save). -/
def updateFirstComment (cs : List CommentDoc) (id : Nat) (rating : ℚ) :
    List CommentDoc :=
  match cs with
  | [] => []
  | c :: rest =>
      if c.id == id then
        (if rating ≠ 0 then { c with rating := rating } else c) :: rest
      else c :: updateFirstComment rest id rating

/-- Removal of the first comment matching `_id` (`comment.deleteOne()`). -/
def removeFirstComment (cs : List CommentDoc) (id : Nat) : List CommentDoc :=
  match cs with
  | [] => []
  | c :: rest =>
      if c.id == id then rest
      else c :: removeFirstComment rest id

/-- Moderation of the first comment matching `_id`
(`moderateComment`: `if (action === 'reject') comment.isBlocked = true`). -/
def moderateFirstComment (cs : List CommentDoc) (id : Nat) (reject : Bool) :
    List CommentDoc :=
  match cs with
  | [] => []
  | c :: rest =>
      if c.id == id then
        (if reject then { c with isBlocked := true } else c) :: rest
      else c :: moderateFirstComment rest id reject

/-- Review/comment write operations exposed by the controllers. -/
inductive RatingOp
  | reviewCreate (id userId professionalId : Nat) (rating : ℚ)
  | reviewUpdate (id userId : Nat) (rating : ℚ)
  | reviewDelete (id userId : Nat)
  | commentCreate (id userId professionalId : Nat) (rating : ℚ)
  | commentUpdate (id : Nat) (rating : ℚ)
  | commentDelete (id : Nat)
  | commentModerate (id : Nat) (reject : Bool)
deriving DecidableEq, Repr

/-- Review operations (as opposed to comment operations). -/
def RatingOp.isReviewOp : RatingOp → Bool
  | .reviewCreate _ _ _ _ => true
  | .reviewUpdate _ _ _ => true
  | .reviewDelete _ _ => true
  | _ => false

/-- One controller operation, including the aggregation hook it triggers.
`reviewCreate` mirrors `createReview` (duplicate (user, professional) check,
professional existence check, save, post-save hook); `reviewUpdate` mirrors
`updateReview`; `reviewDelete` mirrors `deleteReview` (post-remove hook);
`commentCreate` mirrors `createComment`; `commentUpdate` mirrors
`updateComment`; `commentDelete` mirrors `deleteComment` — `deleteOne()` has
no registered hook, so no recompute runs; `commentModerate` mirrors
`moderateComment` (save fires the comment post-save hook). -/
def applyRatingOp (st : RatingState) (op : RatingOp) : RatingState :=
  match op with
  | .reviewCreate id userId professionalId rating =>
      if (st.reviews.filter (fun r =>
            r.userId == userId && r.professionalId == professionalId)).length > 0 then
        st
      else if (st.professionals.filter (fun p => p.id == professionalId)).length = 0 then
        st
      else
        reviewPostSave
          { st with reviews := st.reviews ++
              [{ id := id, userId := userId, professionalId := professionalId,
                 rating := rating }] }
          professionalId
  | .reviewUpdate id userId rating =>
      match st.reviews.find? (fun r => r.id == id && r.userId == userId) with
      | none => st
      | some r =>
          reviewPostSave
            { st with reviews := updateFirstReview st.reviews id userId rating }
            r.professionalId
  | .reviewDelete id userId =>
      match st.reviews.find? (fun r => r.id == id && r.userId == userId) with
      | none => st
      | some r =>
          reviewPostRemove
            { st with reviews := removeFirstReview st.reviews id userId }
            r.professionalId
  | .commentCreate id userId professionalId rating =>
      if (st.professionals.filter (fun p => p.id == professionalId)).length = 0 then
        st
      else if (st.comments.filter (fun c =>
            c.professional == professionalId && c.user == userId)).length > 0 then
        st
      else
        commentPostSave
          { st with comments := st.comments ++
              [{ id := id, user := userId, professional := professionalId,
                 rating := rating, isBlocked := false }] }
          professionalId
  | .commentUpdate id rating =>
      match st.comments.find? (fun c => c.id == id) with
      | none => st
      | some c =>
          commentPostSave
            { st with comments := updateFirstComment st.comments id rating }
            c.professional
  | .commentDelete id =>
      { st with comments := removeFirstComment st.comments id }
  | .commentModerate id reject =>
      match st.comments.find? (fun c => c.id == id) with
      | none => st
      | some c =>
          commentPostSave
            { st with comments := moderateFirstComment st.comments id reject }
            c.professional

/-- A sequence of controller operations. -/
def applyRatingOps (st : RatingState) (ops : List RatingOp) : RatingState :=
  ops.foldl applyRatingOp st

/-- Specification invariant for the review aggregation: every professional
document carries the count of the reviews referencing it and their arithmetic
mean (0 when there are none). -/
def reviewInvariant (st : RatingState) : Prop :=
  ∀ p ∈ st.professionals,
    p.totalRatings = (reviewsFor st.reviews p.id).length ∧
    p.rating =
      (if (reviewsFor st.reviews p.id).length = 0 then JsNum.num 0
       else jsDiv ((reviewsFor st.reviews p.id).map (fun r => r.rating)).sum
              (reviewsFor st.reviews p.id).length)

instance (st : RatingState) : Decidable (reviewInvariant st) := by
  unfold reviewInvariant
  infer_instance

/-! ## Response cache -/

/-- JSON value produced by route handlers and stored in the cache. -/
inductive JsValue
  | null
  | bool (b : Bool)
  | num (q : ℚ)
  | str (s : String)
  | arr (elems : List JsValue)
  | obj (fields : List (String × JsValue))

/-- JavaScript truthiness of a JSON value: `null`, `false`, `0` and the empty
string are falsy; arrays and objects are always truthy. -/
def truthy : JsValue → Bool
  | .null => false
  | .bool b => b
  | .num q => !(q == 0)
  | .str s => !(s == "")
  | .arr _ => true
  | .obj _ => true

/-- In-process cache contents: live key/value entries in insertion order.
TTL bookkeeping is not modelled (no claim concerns expiry). -/
abbrev CacheSt : Type := List (String × JsValue)

/-- Lookup of a key (`cache.get`, `undefined` on a missing key). -/
def lookupCache (st : CacheSt) (k : String) : Option JsValue :=
  match st.find? (fun kv => kv.1 == k) with
  | some kv => some kv.2
  | none => none

/-- Insertion or in-place overwrite of an entry (JS object assignment inside
node-cache: an existing key keeps its position, a new key is appended). -/
def setEntry (st : CacheSt) (k : String) (v : JsValue) : CacheSt :=
  match st with
  | [] => [(k, v)]
  | kv :: rest =>
      if kv.1 == k then (k, v) :: rest
      else kv :: setEntry rest k v

/-- The node-cache `set` operation (external library, modelled from its
documented behaviour): with `maxKeys > -1`, storing while `keys >= maxKeys`
throws ECACHEFULL; otherwise the entry is stored. -/
def ncSet (maxKeys : Int) (st : CacheSt) (k : String) (v : JsValue) :
    Except Unit CacheSt :=
  if maxKeys > -1 ∧ (st.length : Int) ≥ maxKeys then .error ()
  else .ok (setEntry st k v)

/-- Cache backend as seen by the middleware: a lookup and a store operation,
either of which may throw (`Except.error`). -/
structure CacheBackend where
  get : CacheSt → String → Except Unit (Option JsValue)
  set : CacheSt → String → JsValue → Nat → Except Unit CacheSt

/-- The node-cache backend instantiated by the module
(`new NodeCache({..., maxKeys: config.cache.maxKeys})`): `get` never throws,
`set` throws exactly when the store is full. -/
def ncBackend (maxKeys : Int) : CacheBackend where
  get := fun st k => .ok (lookupCache st k)
  set := fun st k v _ttl => ncSet maxKeys st k v

/-- HTTP method of a request. -/
inductive HttpMethod
  | get
  | post
  | put
  | delete
  | patch
deriving DecidableEq, Repr

/-- Method name as it appears in `req.method`. -/
def HttpMethod.toStr : HttpMethod → String
  | .get => "GET"
  | .post => "POST"
  | .put => "PUT"
  | .delete => "DELETE"
  | .patch => "PATCH"

/-- Inbound request, restricted to the fields the cache middleware reads. -/
structure Request where
  url : String
  method : HttpMethod
  user : Option String
  query : List (String × String)
  body : List (String × JsValue)

/-- Embedding of `generateCacheKey`: joins url, method and user id (or
"anonymous"), appends `JSON.stringify(req.query)` when the query has keys and
`JSON.stringify(req.body)` for POST/PUT with a non-empty body.
`JSON.stringify` is a host builtin, abstracted as the two serializer
parameters. -/
def generateCacheKey (stringifyQuery : List (String × String) → String)
    (stringifyBody : List (String × JsValue) → String) (req : Request) :
    String :=
  String.intercalate "|"
    ([req.url, req.method.toStr,
      (match req.user with | some u => u | none => "anonymous")]
     ++ (if req.query.length > 0 then [stringifyQuery req.query] else [])
     ++ (if (req.method == .post || req.method == .put) && req.body.length > 0
         then [stringifyBody req.body] else []))

/-- Default `condition` option of `cacheMiddleware`: `condition = () => true`. -/
def defaultCacheCondition : Request → Bool := fun _ => true

/-- Embedding of `cacheConditions.onlyGet`: `req.method === 'GET'`. -/
def onlyGet (req : Request) : Bool := req.method == .get

/-- Outcome of running the middleware plus handler on one request:
`outcome` is the emitted response, or `Except.error` when an uncaught
exception aborts the emit; `handlerRan` records whether the route handler was
invoked; `cache` is the cache contents afterwards. -/
structure MWResult where
  outcome : Except Unit (Nat × JsValue)
  handlerRan : Bool
  cache : CacheSt

/-- Miss path of the middleware: `next()` runs the handler with `res.json`
overridden; when the handler emits with a status below 400 the body is stored
(`cache.set`) before the original `res.json` runs.  The handlers are async, so
a `cache.set` throw happens outside the middleware's try/catch and aborts the
emit. -/
def cacheMiss (B : CacheBackend) (cacheKey : String) (ttl : Nat)
    (handler : Request → Nat × JsValue) (st : CacheSt) (req : Request) :
    MWResult :=
  let res := handler req
  if res.1 < 400 then
    match B.set st cacheKey res.2 ttl with
    | .error _ => { outcome := .error (), handlerRan := true, cache := st }
    | .ok st1 => { outcome := .ok res, handlerRan := true, cache := st1 }
  else
    { outcome := .ok res, handlerRan := true, cache := st }

/-- Embedding of `cacheMiddleware(options)` applied to one request.  When the
condition fails, plain `next()`.  Otherwise the key is computed and
`cache.get` runs inside try/catch: on a throw the error is logged and `next()`
runs without the override; on a truthy cached value the stored body is
returned with the handler bypassed (`return res.json(cachedResponse)` —
presence is tested by truthiness of the retrieved value); otherwise the miss
path runs. -/
def runCacheMiddleware (B : CacheBackend) (condition : Request → Bool)
    (keyFn : Request → String) (ttl : Nat)
    (handler : Request → Nat × JsValue) (st : CacheSt) (req : Request) :
    MWResult :=
  if !(condition req) then
    { outcome := .ok (handler req), handlerRan := true, cache := st }
  else
    let cacheKey := keyFn req
    match B.get st cacheKey with
    | .error _ =>
        { outcome := .ok (handler req), handlerRan := true, cache := st }
    | .ok cached =>
        match cached with
        | some v =>
            if truthy v then
              { outcome := .ok (200, v), handlerRan := false, cache := st }
            else cacheMiss B cacheKey ttl handler st req
        | none => cacheMiss B cacheKey ttl handler st req

/-- JS `key.includes(pattern)`: substring containment. -/
def strIncludes (s pat : String) : Bool := decide (pat.data <:+: s.data)

/-- Embedding of `clearCache(pattern)`: with a truthy pattern, the keys
containing the pattern (`key.includes(pattern)`) are collected and deleted;
with a falsy pattern everything is flushed. -/
def clearCache (st : CacheSt) (pattern : String) : CacheSt :=
  if pattern ≠ "" then
    let matchingKeys := (st.map (fun kv => kv.1)).filter
      (fun k => strIncludes k pattern)
    st.filter (fun kv => !(matchingKeys.contains kv.1))
  else []

/-- Embedding of `cacheHelpers.invalidateResource`: `clearCache(resource)`. -/
def invalidateResource (st : CacheSt) (resource : String) : CacheSt :=
  clearCache st resource

/-! ## Theorems: appointments -/

/-- Membership characterization of the overlap query. -/
theorem findOverlapping_mem (apts : List Appointment) (pid : Nat)
    (s e : Int) (a : Appointment) :
    a ∈ findOverlapping apts pid s e ↔
      (a ∈ apts ∧ a.professional = pid ∧ a.status ≠ .cancelled ∧
       a.startTime < e ∧ s < a.endTime) := by
  unfold findOverlapping
  simp only [List.mem_filter, Bool.and_eq_true, decide_eq_true_eq,
    beq_iff_eq, Bool.not_eq_true', beq_eq_false_iff_ne, ne_eq, gt_iff_lt]
  tauto

/-- C2: a booking request for (professional, service, startTime) with
endTime = startTime + duration is rejected as unavailable if and only if the
half-open interval strictly overlaps some existing non-cancelled appointment
of that professional (existing.startTime < endTime and
existing.endTime > startTime); touching intervals do not overlap and are
accepted. -/
theorem booking_rejected_iff_noncancelled_overlap
    (apts : List Appointment) (pid cid sid : Nat) (dur : Nat) (start : Int) :
    createAppointment apts pid cid sid dur start
        = .error "Time slot is not available" ↔
      ∃ a ∈ apts, a.professional = pid ∧ a.status ≠ .cancelled ∧
        a.startTime < start + dur * 60000 ∧ start < a.endTime := by
  unfold createAppointment
  constructor
  · intro h
    by_cases hlen :
        0 < (findOverlapping apts pid start (start + dur * 60000)).length
    · obtain ⟨a, ha⟩ := List.exists_mem_of_length_pos hlen
      exact ⟨a, (findOverlapping_mem apts pid start (start + dur * 60000) a).mp ha⟩
    · simp only [gt_iff_lt, hlen, if_false] at h
      exact Except.noConfusion h
  · rintro ⟨a, ha, h1, h2, h3, h4⟩
    have hmem : a ∈ findOverlapping apts pid start (start + dur * 60000) :=
      (findOverlapping_mem apts pid start (start + dur * 60000) a).mpr
        ⟨ha, h1, h2, h3, h4⟩
    have hlen : 0 < (findOverlapping apts pid start (start + dur * 60000)).length :=
      List.length_pos.mpr (List.ne_nil_of_mem hmem)
    simp only [gt_iff_lt, hlen, if_true]

/-- C3 counterexample: a confirmed appointment 100 hours in the future (well
over 24 hours before startTime) — the claim says the cancel succeeds, but
`canCancel` short-circuits to false on any non-pending status, so the
controller rejects it. -/
theorem confirmed_cancel_far_ahead_rejected :
    hoursDiff 360000000 0 ≥ 24 ∧
    updateStatus
      { professional := 0, client := 1, service := 0, startTime := 360000000,
        endTime := 363600000, status := .confirmed } .cancelled
      = .error "Cannot cancel appointment" :=
  ⟨by decide, rfl⟩

/-- C3 (amended): a cancel request never succeeds.  On a non-pending
appointment (confirmed included, however far ahead) `canCancel`
short-circuits to false and the controller rejects with 400 "Cannot cancel
appointment"; on a pending appointment `canCancel` throws the unbound-moment
ReferenceError, and the controller's catch answers 500 "Failed to update
appointment".  Either way the appointment is never set to cancelled. -/
theorem cancel_never_succeeds (a : Appointment) :
    (a.status ≠ .pending →
      updateStatus a .cancelled = .error "Cannot cancel appointment")
  ∧ (a.status = .pending →
      updateStatus a .cancelled = .error "Failed to update appointment")
  ∧ ∀ b, updateStatus a .cancelled ≠ .ok b := by
  by_cases hp : a.status = .pending
  · have hc : canCancel a = .error () := by
      simp [canCancel, hp]
    refine ⟨fun h => absurd hp h, fun _ => ?_, fun b => ?_⟩
    · simp [updateStatus, hc]
    · simp [updateStatus, hc]
  · have hc : canCancel a = .ok false := by
      have hb : (a.status == AppointmentStatus.pending) = false := by
        simp [beq_eq_false_iff_ne, hp]
      simp [canCancel, hb]
    refine ⟨fun _ => ?_, fun h => absurd h hp, fun b => ?_⟩
    · simp [updateStatus, hc]
    · simp [updateStatus, hc]

/-- C3 amended witness: a confirmed and a pending appointment, both with more
than 24 hours to go, each fail to cancel with the respective error. -/
theorem cancel_never_succeeds_witness :
    ({ professional := 0, client := 1, service := 0, startTime := 360000000,
       endTime := 363600000, status := .confirmed } : Appointment).status
      ≠ .pending
  ∧ updateStatus
      { professional := 0, client := 1, service := 0, startTime := 360000000,
        endTime := 363600000, status := .confirmed } .cancelled
      = .error "Cannot cancel appointment"
  ∧ ({ professional := 0, client := 1, service := 0, startTime := 360000000,
       endTime := 363600000, status := .pending } : Appointment).status
      = .pending
  ∧ updateStatus
      { professional := 0, client := 1, service := 0, startTime := 360000000,
        endTime := 363600000, status := .pending } .cancelled
      = .error "Failed to update appointment" :=
  ⟨by decide,
   (cancel_never_succeeds
      { professional := 0, client := 1, service := 0, startTime := 360000000,
        endTime := 363600000, status := .confirmed }).1 (by decide),
   by decide,
   (cancel_never_succeeds
      { professional := 0, client := 1, service := 0, startTime := 360000000,
        endTime := 363600000, status := .pending }).2.1 (by decide)⟩

/-- C4 counterexample: the transition pending→completed is outside the
specification's transition set, yet `updateStatus` applies it with no error
and changes the stored status. -/
theorem pending_to_completed_silently_applied :
    specAllowedTransition .pending .completed = false ∧
    updateStatus
      { professional := 0, client := 1, service := 0, startTime := 360000000,
        endTime := 363600000, status := .pending } .completed
      = .ok { professional := 0, client := 1, service := 0,
              startTime := 360000000, endTime := 363600000,
              status := .completed } :=
  ⟨rfl, rfl⟩

/-- C4 (amended): the status update validates only cancellation: every
requested status other than cancelled is applied unconditionally whatever
the current status — transitions outside the specification's set included —
and a requested cancellation is never applied (non-pending appointments are
answered "Cannot cancel appointment"; pending ones "Failed to update
appointment" after the unbound-moment ReferenceError), so even
confirmed→cancelled, which the specification allows, never happens. -/
theorem updateStatus_validates_only_cancellation (a : Appointment)
    (req : AppointmentStatus) :
    (req ≠ .cancelled → updateStatus a req = .ok { a with status := req })
  ∧ (∀ b, updateStatus a .cancelled ≠ .ok b) := by
  constructor
  · intro hreq
    have hb : (req == AppointmentStatus.cancelled) = false := by
      simp [beq_eq_false_iff_ne, hreq]
    simp [updateStatus, hb]
  · exact (cancel_never_succeeds a).2.2

/-- C4 amended witness: pending→completed (outside the specification's set)
is applied; confirmed→cancelled (inside the specification's set) is not. -/
theorem updateStatus_validation_witness :
    (AppointmentStatus.completed ≠ .cancelled)
  ∧ updateStatus
      { professional := 2, client := 3, service := 1, startTime := 720000000,
        endTime := 723600000, status := .pending } .completed
      = .ok { professional := 2, client := 3, service := 1,
              startTime := 720000000, endTime := 723600000,
              status := .completed }
  ∧ updateStatus
      { professional := 2, client := 3, service := 1, startTime := 720000000,
        endTime := 723600000, status := .confirmed } .cancelled
      ≠ .ok { professional := 2, client := 3, service := 1,
              startTime := 720000000, endTime := 723600000,
              status := .cancelled } :=
  ⟨by decide,
   (updateStatus_validates_only_cancellation
      { professional := 2, client := 3, service := 1, startTime := 720000000,
        endTime := 723600000, status := .pending } .completed).1 (by decide),
   (updateStatus_validates_only_cancellation
      { professional := 2, client := 3, service := 1, startTime := 720000000,
        endTime := 723600000, status := .confirmed } .cancelled).2
     { professional := 2, client := 3, service := 1, startTime := 720000000,
       endTime := 723600000, status := .cancelled }⟩

/-- C6 counterexample: a completed appointment overlapping the requested
interval is returned by the overlap query and makes the booking rejected,
although the claim says completed appointments never cause a conflict. -/
theorem completed_appointment_blocks_booking :
    (findOverlapping
        [{ professional := 0, client := 0, service := 0, startTime := 0,
           endTime := 3600000, status := .completed }] 0 1800000 5400000).length = 1
  ∧ createAppointment
      [{ professional := 0, client := 0, service := 0, startTime := 0,
         endTime := 3600000, status := .completed }] 0 1 0 60 1800000
      = .error "Time slot is not available" :=
  ⟨rfl, rfl⟩

/-- C6 (amended): the overlap query filters with status not-in ['cancelled'],
so pending, confirmed and completed appointments are all returned as
conflicts; only cancelled appointments are ignored, and when every
appointment of the professional is cancelled the booking is accepted. -/
theorem overlap_query_excludes_only_cancelled :
    (∀ (apts : List Appointment) (pid : Nat) (s e : Int) (a : Appointment),
        a ∈ findOverlapping apts pid s e ↔
          (a ∈ apts ∧ a.professional = pid ∧ a.status ≠ .cancelled ∧
           a.startTime < e ∧ s < a.endTime))
  ∧ (∀ (apts : List Appointment) (pid cid sid : Nat) (dur : Nat) (start : Int),
        (∀ a ∈ apts, a.professional = pid → a.status = .cancelled) →
        ∃ l, createAppointment apts pid cid sid dur start = .ok l) := by
  refine ⟨findOverlapping_mem, ?_⟩
  intro apts pid cid sid dur start hall
  unfold createAppointment
  have hempty :
      ¬ 0 < (findOverlapping apts pid start (start + dur * 60000)).length := by
    intro hlen
    obtain ⟨a, ha⟩ := List.exists_mem_of_length_pos hlen
    rcases (findOverlapping_mem apts pid start (start + dur * 60000) a).mp ha
      with ⟨hmem, h1, h2, _, _⟩
    exact h2 (hall a hmem h1)
  simp only [gt_iff_lt, hempty, if_false]
  exact ⟨_, rfl⟩

/-- C6 amended witness: the overlap-query characterization applied at an
all-cancelled store: the booking is accepted. -/
theorem overlap_query_cancelled_witness :
    (∀ a ∈ [{ professional := 0, client := 0, service := 0, startTime := 0,
              endTime := 3600000, status := .cancelled : Appointment }],
        a.professional = 0 → a.status = .cancelled)
  ∧ ∃ l, createAppointment
      [{ professional := 0, client := 0, service := 0, startTime := 0,
         endTime := 3600000, status := .cancelled }] 0 1 0 60 1800000 = .ok l :=
  ⟨by decide,
   overlap_query_excludes_only_cancelled.2
     [{ professional := 0, client := 0, service := 0, startTime := 0,
        endTime := 3600000, status := .cancelled }] 0 1 0 60 1800000
     (by decide)⟩

/-! ## Theorems: rating aggregation -/

/-- The left fold used by the JS reduce equals the mapped sum. -/
theorem foldl_add_ratings (rs : List ReviewDoc) (c : ℚ) :
    rs.foldl (fun acc r => acc + r.rating) c
      = c + (rs.map (fun r => r.rating)).sum := by
  induction rs generalizing c with
  | nil => simp
  | cons r rest ih => simp [List.foldl_cons, ih, add_assoc]

/-- The JS reduce over review ratings is the sum of the ratings. -/
theorem sumReviewRatings_eq_sum (rs : List ReviewDoc) :
    sumReviewRatings rs = (rs.map (fun r => r.rating)).sum := by
  unfold sumReviewRatings
  rw [foldl_add_ratings, zero_add]

/-- Decomposition of `updateFirstReview` around the document found by
`find?`. -/
theorem updateFirstReview_decomp (rs : List ReviewDoc) (id uid : Nat) (q : ℚ)
    (r0 : ReviewDoc)
    (h : rs.find? (fun r => r.id == id && r.userId == uid) = some r0) :
    ∃ l1 l2, rs = l1 ++ r0 :: l2 ∧
      updateFirstReview rs id uid q = l1 ++ { r0 with rating := q } :: l2 := by
  induction rs with
  | nil => simp at h
  | cons r rest ih =>
      cases hp : (r.id == id && r.userId == uid) with
      | true =>
          simp only [List.find?_cons, hp] at h
          injection h with h
          subst h
          exact ⟨[], rest, by simp, by simp [updateFirstReview, hp]⟩
      | false =>
          simp only [List.find?_cons, hp] at h
          obtain ⟨l1, l2, he, hu⟩ := ih h
          refine ⟨r :: l1, l2, by simp [he], ?_⟩
          simp [updateFirstReview, hp, hu]

/-- Decomposition of `removeFirstReview` around the document found by
`find?`. -/
theorem removeFirstReview_decomp (rs : List ReviewDoc) (id uid : Nat)
    (r0 : ReviewDoc)
    (h : rs.find? (fun r => r.id == id && r.userId == uid) = some r0) :
    ∃ l1 l2, rs = l1 ++ r0 :: l2 ∧
      removeFirstReview rs id uid = l1 ++ l2 := by
  induction rs with
  | nil => simp at h
  | cons r rest ih =>
      cases hp : (r.id == id && r.userId == uid) with
      | true =>
          simp only [List.find?_cons, hp] at h
          injection h with h
          subst h
          exact ⟨[], rest, by simp, by simp [removeFirstReview, hp]⟩
      | false =>
          simp only [List.find?_cons, hp] at h
          obtain ⟨l1, l2, he, hu⟩ := ih h
          refine ⟨r :: l1, l2, by simp [he], ?_⟩
          simp [removeFirstReview, hp, hu]

/-- The review save hook restores the invariant for the written professional
and preserves it for the others, provided the written professional still has
at least one review (always the case after a save). -/
theorem reviewInvariant_after_postSave (st st' : RatingState) (pid : Nat)
    (hprofs : st'.professionals = st.professionals)
    (hother : ∀ q, q ≠ pid → reviewsFor st'.reviews q = reviewsFor st.reviews q)
    (hne : reviewsFor st'.reviews pid ≠ [])
    (hinv : reviewInvariant st) :
    reviewInvariant (reviewPostSave st' pid) := by
  intro p' hp'
  simp only [reviewPostSave, writeAggregate] at hp' ⊢
  rw [List.mem_map] at hp'
  obtain ⟨p, hp, rfl⟩ := hp'
  by_cases hid : p.id = pid
  · have hb : (p.id == pid) = true := by simp [hid]
    have hlen : (reviewsFor st'.reviews pid).length ≠ 0 := by
      simpa [List.length_eq_zero] using hne
    simp only [hb, eq_self_iff_true, if_true]
    refine ⟨by simp [hid], ?_⟩
    simp only [hid]
    rw [if_neg hlen]
    simp [jsDiv, sumReviewRatings_eq_sum]
  · have hb : (p.id == pid) = false := by simp [hid]
    simp only [hb, Bool.false_eq_true, if_false]
    have hbase := hinv p (hprofs ▸ hp)
    rw [hother p.id hid]
    exact hbase

/-- The review remove hook restores the invariant for the written
professional (its average is guarded) and preserves it for the others. -/
theorem reviewInvariant_after_postRemove (st st' : RatingState) (pid : Nat)
    (hprofs : st'.professionals = st.professionals)
    (hother : ∀ q, q ≠ pid → reviewsFor st'.reviews q = reviewsFor st.reviews q)
    (hinv : reviewInvariant st) :
    reviewInvariant (reviewPostRemove st' pid) := by
  intro p' hp'
  simp only [reviewPostRemove, writeAggregate] at hp' ⊢
  rw [List.mem_map] at hp'
  obtain ⟨p, hp, rfl⟩ := hp'
  by_cases hid : p.id = pid
  · have hb : (p.id == pid) = true := by simp [hid]
    simp only [hb, eq_self_iff_true, if_true]
    refine ⟨by simp [hid], ?_⟩
    simp only [hid]
    by_cases hlen : (reviewsFor st'.reviews pid).length = 0
    · simp [hlen]
    · rw [if_neg hlen, if_pos (Nat.pos_of_ne_zero hlen)]
      simp [jsDiv, sumReviewRatings_eq_sum]
  · have hb : (p.id == pid) = false := by simp [hid]
    simp only [hb, Bool.false_eq_true, if_false]
    have hbase := hinv p (hprofs ▸ hp)
    rw [hother p.id hid]
    exact hbase

/-- Each review controller operation (create, update, delete) preserves the
aggregation invariant: its triggering hook fully recomputes the professional
it touches and leaves the others' review sets unchanged. -/
theorem reviewOp_preserves_invariant (st : RatingState) (op : RatingOp)
    (hop : op.isReviewOp = true) (hinv : reviewInvariant st) :
    reviewInvariant (applyRatingOp st op) := by
  cases op with
  | reviewCreate id uid pid rating =>
      simp only [applyRatingOp]
      split
      · exact hinv
      · split
        · exact hinv
        · refine reviewInvariant_after_postSave st
            { st with reviews := st.reviews ++
                [{ id := id, userId := uid, professionalId := pid,
                   rating := rating }] }
            pid rfl ?_ ?_ hinv
          · intro q hq
            have hb : (pid == q) = false := by
              simp only [beq_eq_false_iff_ne]
              exact Ne.symm hq
            simp [reviewsFor, List.filter_append, hb]
          · apply List.ne_nil_of_mem
              (a := { id := id, userId := uid, professionalId := pid,
                      rating := rating })
            simp [reviewsFor, List.mem_filter]
  | reviewUpdate id uid rating =>
      simp only [applyRatingOp]
      cases hfind : st.reviews.find? (fun r => r.id == id && r.userId == uid) with
      | none => exact hinv
      | some r0 =>
          obtain ⟨l1, l2, he, hu⟩ :=
            updateFirstReview_decomp st.reviews id uid rating r0 hfind
          refine reviewInvariant_after_postSave st
            { st with reviews := updateFirstReview st.reviews id uid rating }
            r0.professionalId rfl ?_ ?_ hinv
          · intro q hq
            have hb : (r0.professionalId == q) = false := by
              simp only [beq_eq_false_iff_ne]
              exact Ne.symm hq
            show reviewsFor (updateFirstReview st.reviews id uid rating) q
              = reviewsFor st.reviews q
            rw [hu]
            conv_rhs => rw [he]
            simp [reviewsFor, List.filter_append, hb]
          · show reviewsFor (updateFirstReview st.reviews id uid rating)
              r0.professionalId ≠ []
            rw [hu]
            apply List.ne_nil_of_mem (a := { r0 with rating := rating })
            simp [reviewsFor, List.mem_filter]
  | reviewDelete id uid =>
      simp only [applyRatingOp]
      cases hfind : st.reviews.find? (fun r => r.id == id && r.userId == uid) with
      | none => exact hinv
      | some r0 =>
          obtain ⟨l1, l2, he, hu⟩ :=
            removeFirstReview_decomp st.reviews id uid r0 hfind
          refine reviewInvariant_after_postRemove st
            { st with reviews := removeFirstReview st.reviews id uid }
            r0.professionalId rfl ?_ hinv
          intro q hq
          have hb : (r0.professionalId == q) = false := by
            simp only [beq_eq_false_iff_ne]
            exact Ne.symm hq
          show reviewsFor (removeFirstReview st.reviews id uid) q
            = reviewsFor st.reviews q
          rw [hu]
          conv_rhs => rw [he]
          simp [reviewsFor, List.filter_append, hb]
  | commentCreate id uid pid rating => simp [RatingOp.isReviewOp] at hop
  | commentUpdate id rating => simp [RatingOp.isReviewOp] at hop
  | commentDelete id => simp [RatingOp.isReviewOp] at hop
  | commentModerate id reject => simp [RatingOp.isReviewOp] at hop

/-- C1 counterexample: creating a single comment (rating 5) for a
professional fires the comment save hook, which leaves `totalRatings` at 0
although one non-blocked comment now references the professional — the
count is assigned to a `reviewCount` field that is not part of the
Professional schema, so the claimed `totalRatings == count` fails. -/
theorem comment_save_leaves_totalRatings_stale :
    ((applyRatingOps
        { professionals := [{ id := 0, rating := JsNum.num 0, totalRatings := 0 }],
          reviews := [], comments := [] }
        [.commentCreate 0 1 0 5]).professionals.map
      (fun p => p.totalRatings)) = [0]
  ∧ (commentsNonBlockedFor
        (applyRatingOps
          { professionals := [{ id := 0, rating := JsNum.num 0, totalRatings := 0 }],
            reviews := [], comments := [] }
          [.commentCreate 0 1 0 5]).comments 0).length = 1 := by
  constructor <;> decide

/-- C1 (amended): restricted to review operations the claim holds — after any
sequence of review create/update/delete operations every professional's
`totalRatings` equals the number of reviews referencing it and `rating`
equals their arithmetic mean (0 when there are none), each hook being a full
recompute.  Comment operations break the claim as stated: the comment save
hook writes the non-blocked comment mean over `rating` but cannot update
`totalRatings` (it assigns a `reviewCount` field absent from the schema), and
comment deletion triggers no recompute at all. -/
theorem review_ops_preserve_rating_invariant (ops : List RatingOp)
    (st : RatingState)
    (hops : ∀ op ∈ ops, op.isReviewOp = true)
    (hinv : reviewInvariant st) :
    reviewInvariant (applyRatingOps st ops) := by
  induction ops generalizing st with
  | nil => exact hinv
  | cons op rest ih =>
      have h1 : reviewInvariant (applyRatingOp st op) :=
        reviewOp_preserves_invariant st op (hops op (List.mem_cons_self op rest)) hinv
      exact ih (applyRatingOp st op)
        (fun o ho => hops o (List.mem_cons_of_mem op ho)) h1

/-- C1 amended witness: a create followed by an update and a delete on a
fresh professional, evaluated concretely. -/
theorem review_ops_invariant_witness :
    (∀ op ∈ ([.reviewCreate 0 7 0 5, .reviewUpdate 0 7 3,
              .reviewDelete 0 7] : List RatingOp), op.isReviewOp = true)
  ∧ reviewInvariant
      { professionals := [{ id := 0, rating := JsNum.num 0, totalRatings := 0 }],
        reviews := [], comments := [] }
  ∧ reviewInvariant
      (applyRatingOps
        { professionals := [{ id := 0, rating := JsNum.num 0, totalRatings := 0 }],
          reviews := [], comments := [] }
        [.reviewCreate 0 7 0 5, .reviewUpdate 0 7 3, .reviewDelete 0 7]) :=
  ⟨by decide, by decide,
   review_ops_preserve_rating_invariant
     [.reviewCreate 0 7 0 5, .reviewUpdate 0 7 3, .reviewDelete 0 7]
     { professionals := [{ id := 0, rating := JsNum.num 0, totalRatings := 0 }],
       reviews := [], comments := [] }
     (by decide) (by decide)⟩

/-- C5 counterexample: blocking the only comment of a professional saves the
comment and fires the save hook with an empty non-blocked set; the unguarded
division writes NaN (0/0) to `rating`, not 0. -/
theorem blocking_last_comment_writes_nan :
    (applyRatingOps
        { professionals := [{ id := 0, rating := JsNum.num 0, totalRatings := 0 }],
          reviews := [], comments := [] }
        [.commentCreate 0 1 0 5, .commentModerate 0 true]).professionals
      = [{ id := 0, rating := JsNum.nan, totalRatings := 0 }] := by
  decide

/-- C5 (amended): the guard exists only on the review remove hook: when a
professional is left with no reviews, `reviewSchema.post('remove')` writes
rating 0 and totalRatings 0.  The comment save hook has no such guard and
writes NaN when every comment of the professional is blocked. -/
theorem review_remove_guard_writes_zero (st : RatingState) (pid : Nat)
    (h : reviewsFor st.reviews pid = []) :
    ∀ p ∈ (reviewPostRemove st pid).professionals,
      p.id = pid → p.rating = JsNum.num 0 ∧ p.totalRatings = 0 := by
  intro p hp hpid
  simp only [reviewPostRemove, writeAggregate] at hp
  rw [List.mem_map] at hp
  obtain ⟨p0, hp0, rfl⟩ := hp
  by_cases hid : p0.id = pid
  · have hb : (p0.id == pid) = true := by simp [hid]
    simp only [hb, eq_self_iff_true, if_true]
    simp [h]
  · have hb : (p0.id == pid) = false := by simp [hid]
    simp only [hb, Bool.false_eq_true, if_false] at hpid ⊢
    exact absurd hpid hid

/-- C5 amended witness: removing the last review of a professional writes
rating 0. -/
theorem review_remove_guard_witness :
    reviewsFor ([] : List ReviewDoc) 0 = []
  ∧ ∀ p ∈ (reviewPostRemove
        { professionals := [{ id := 0, rating := JsNum.nan, totalRatings := 3 }],
          reviews := [], comments := [] } 0).professionals,
      p.id = 0 → p.rating = JsNum.num 0 ∧ p.totalRatings = 0 :=
  ⟨by decide,
   review_remove_guard_writes_zero
     { professionals := [{ id := 0, rating := JsNum.nan, totalRatings := 3 }],
       reviews := [], comments := [] } 0 (by decide)⟩

/-! ## Theorems: response cache -/

/-- Storing under a key makes it retrievable. -/
theorem lookup_setEntry_self (st : CacheSt) (k : String) (v : JsValue) :
    lookupCache (setEntry st k v) k = some v := by
  induction st with
  | nil => simp [setEntry, lookupCache, List.find?_cons]
  | cons kv rest ih =>
      cases hk : (kv.1 == k) with
      | true => simp [setEntry, hk, lookupCache, List.find?_cons]
      | false =>
          simp only [setEntry, hk]
          simpa [lookupCache, List.find?_cons, hk] using ih

/-- The miss path always invokes the handler. -/
theorem cacheMiss_handlerRan (B : CacheBackend) (k : String) (ttl : Nat)
    (handler : Request → Nat × JsValue) (st : CacheSt) (req : Request) :
    (cacheMiss B k ttl handler st req).handlerRan = true := by
  simp only [cacheMiss]
  split
  · split <;> rfl
  · rfl

/-- C7 counterexample: a full node-cache store (maxKeys 1, one unrelated live
key) makes `cache.set` throw while the handler emits a successful response on
a cache miss; the throw is outside the middleware's try/catch, so the request
fails instead of completing as on a miss. -/
theorem full_cache_store_error_fails_request :
    (runCacheMiddleware (ncBackend 1) (fun _ => true) (fun _ => "k") 60
        (fun _ => (200, JsValue.str "hello"))
        [("other", JsValue.str "x")]
        { url := "/a", method := .get, user := none, query := [], body := [] }).outcome
      = .error () := by
  rfl

/-- C7 (amended): a cache lookup error is caught by the middleware's
try/catch — the handler runs and its response is emitted with the cache left
unchanged (as on a miss, except that nothing is stored); but a cache store
error thrown while the handler emits a successful response propagates and the
emit fails. -/
theorem lookup_error_caught_store_error_propagates :
    (∀ (B : CacheBackend) (cond : Request → Bool) (keyFn : Request → String)
        (ttl : Nat) (handler : Request → Nat × JsValue) (st : CacheSt)
        (req : Request),
        cond req = true →
        B.get st (keyFn req) = .error () →
        runCacheMiddleware B cond keyFn ttl handler st req
          = { outcome := .ok (handler req), handlerRan := true, cache := st })
  ∧ (∀ (B : CacheBackend) (cond : Request → Bool) (keyFn : Request → String)
        (ttl : Nat) (handler : Request → Nat × JsValue) (st : CacheSt)
        (req : Request) (status : Nat) (body : JsValue),
        cond req = true →
        B.get st (keyFn req) = .ok none →
        handler req = (status, body) →
        status < 400 →
        B.set st (keyFn req) body ttl = .error () →
        (runCacheMiddleware B cond keyFn ttl handler st req).outcome
          = .error ()) := by
  constructor
  · intro B cond keyFn ttl handler st req hcond hget
    unfold runCacheMiddleware
    rw [hcond]
    simp only [Bool.not_true, Bool.false_eq_true, if_false]
    rw [hget]
  · intro B cond keyFn ttl handler st req status body hcond hget hh hstatus hset
    unfold runCacheMiddleware
    rw [hcond]
    simp only [Bool.not_true, Bool.false_eq_true, if_false]
    rw [hget]
    unfold cacheMiss
    rw [hh]
    simp only [hstatus, if_true]
    rw [hset]

/-- C7 amended witness: both failure paths at concrete backends. -/
theorem cache_error_paths_witness :
    (runCacheMiddleware
        { get := fun _ _ => .error (), set := fun _ _ _ _ => .error () }
        (fun _ => true) (fun _ => "k") 60 (fun _ => (200, JsValue.str "ok"))
        [] { url := "/a", method := .get, user := none, query := [], body := [] }
      = { outcome := .ok (200, JsValue.str "ok"), handlerRan := true, cache := [] })
  ∧ ((runCacheMiddleware
        { get := fun _ _ => .ok none, set := fun _ _ _ _ => .error () }
        (fun _ => true) (fun _ => "k") 60 (fun _ => (200, JsValue.str "ok"))
        [] { url := "/a", method := .get, user := none, query := [], body := [] }).outcome
      = .error ()) :=
  ⟨lookup_error_caught_store_error_propagates.1
     { get := fun _ _ => .error (), set := fun _ _ _ _ => .error () }
     (fun _ => true) (fun _ => "k") 60 (fun _ => (200, JsValue.str "ok"))
     [] { url := "/a", method := .get, user := none, query := [], body := [] }
     rfl rfl,
   lookup_error_caught_store_error_propagates.2
     { get := fun _ _ => .ok none, set := fun _ _ _ _ => .error () }
     (fun _ => true) (fun _ => "k") 60 (fun _ => (200, JsValue.str "ok"))
     [] { url := "/a", method := .get, user := none, query := [], body := [] }
     200 (JsValue.str "ok") rfl rfl rfl (by decide) rfl⟩

/-- C8 counterexample: with default options the condition is `() => true`, so
a POST request is cached: the first POST stores its successful response body,
and an identical second POST is served the stored response without invoking
the handler. -/
theorem default_options_cache_post_request :
    ((runCacheMiddleware (ncBackend 1000) defaultCacheCondition
        (generateCacheKey (fun _ => "") (fun _ => "")) 300
        (fun _ => (200, JsValue.str "ok")) []
        { url := "/api/x", method := .post, user := none, query := [],
          body := [("a", JsValue.str "b")] }).cache).length = 1
  ∧ (runCacheMiddleware (ncBackend 1000) defaultCacheCondition
        (generateCacheKey (fun _ => "") (fun _ => "")) 300
        (fun _ => (200, JsValue.str "ok"))
        (runCacheMiddleware (ncBackend 1000) defaultCacheCondition
          (generateCacheKey (fun _ => "") (fun _ => "")) 300
          (fun _ => (200, JsValue.str "ok")) []
          { url := "/api/x", method := .post, user := none, query := [],
            body := [("a", JsValue.str "b")] }).cache
        { url := "/api/x", method := .post, user := none, query := [],
          body := [("a", JsValue.str "b")] }).handlerRan = false := by
  constructor <;> rfl

/-- C8 (amended): the default `condition` option accepts every request, so
with default options the middleware caches POST/PUT requests too (the cache
key includes method and body); GET-only behaviour holds only when
`cacheConditions.onlyGet` is explicitly passed, in which case a non-GET
request always runs the handler and leaves the cache untouched. -/
theorem cache_condition_default_and_onlyGet :
    (∀ req : Request, defaultCacheCondition req = true)
  ∧ (∀ (B : CacheBackend) (keyFn : Request → String) (ttl : Nat)
        (handler : Request → Nat × JsValue) (st : CacheSt) (req : Request),
        req.method ≠ .get →
        runCacheMiddleware B onlyGet keyFn ttl handler st req
          = { outcome := .ok (handler req), handlerRan := true, cache := st }) := by
  constructor
  · intro req
    rfl
  · intro B keyFn ttl handler st req hm
    have hc : onlyGet req = false := by
      simp only [onlyGet, beq_eq_false_iff_ne, ne_eq]
      exact hm
    unfold runCacheMiddleware
    rw [hc]
    rfl

/-- C8 amended witness: a POST request under `onlyGet` runs the handler with
the cache untouched. -/
theorem onlyGet_post_witness :
    ({ url := "/api/x", method := .post, user := none, query := [],
       body := [] } : Request).method ≠ .get
  ∧ runCacheMiddleware (ncBackend 1000) onlyGet (fun _ => "k") 300
      (fun _ => (201, JsValue.str "made")) [("k", JsValue.str "old")]
      { url := "/api/x", method := .post, user := none, query := [], body := [] }
      = { outcome := .ok (201, JsValue.str "made"), handlerRan := true,
          cache := [("k", JsValue.str "old")] } :=
  ⟨by decide,
   cache_condition_default_and_onlyGet.2 (ncBackend 1000) (fun _ => "k") 300
     (fun _ => (201, JsValue.str "made")) [("k", JsValue.str "old")]
     { url := "/api/x", method := .post, user := none, query := [], body := [] }
     (by decide)⟩

/-- C9 counterexample: invalidating with prefix "professionals" also removes
an entry whose key merely contains the pattern in the middle
("users|1|professionals"), although that key does not start with the prefix —
`clearCache` matches with `key.includes(pattern)`, not a prefix test. -/
theorem substring_invalidation_removes_nonstarting_key :
    invalidateResource [("users|1|professionals", JsValue.str "v")]
        "professionals" = []
  ∧ ¬("professionals".data <+: "users|1|professionals".data) :=
  ⟨rfl, by decide⟩

/-- C9 (amended): for a non-empty pattern, invalidation removes exactly the
entries whose key contains the pattern as a substring: an entry survives iff
it was live and its key does not contain the pattern; in particular every
key starting with the prefix is removed (prefix implies substring), but keys
containing the pattern elsewhere are removed too. -/
theorem clearCache_removes_by_substring (st : CacheSt) (p k : String)
    (v : JsValue) (hp : p ≠ "") :
    (((k, v) ∈ clearCache st p) ↔ ((k, v) ∈ st ∧ strIncludes k p = false))
  ∧ (p.data <+: k.data → (k, v) ∉ clearCache st p) := by
  have hmain : ((k, v) ∈ clearCache st p) ↔
      ((k, v) ∈ st ∧ strIncludes k p = false) := by
    unfold clearCache
    rw [if_pos hp]
    rw [List.mem_filter]
    constructor
    · rintro ⟨hmem, hkeep⟩
      refine ⟨hmem, ?_⟩
      rw [Bool.not_eq_true'] at hkeep
      cases hx : strIncludes k p with
      | false => rfl
      | true =>
          exfalso
          have hk : k ∈ (st.map (fun kv => kv.1)).filter
              (fun k0 => strIncludes k0 p) := by
            rw [List.mem_filter]
            exact ⟨List.mem_map_of_mem _ hmem, hx⟩
          simp [hk] at hkeep
    · rintro ⟨hmem, hninc⟩
      refine ⟨hmem, ?_⟩
      rw [Bool.not_eq_true']
      have : k ∉ (st.map (fun kv => kv.1)).filter (fun k0 => strIncludes k0 p) := by
        rw [List.mem_filter]
        rintro ⟨-, hx⟩
        rw [hninc] at hx
        exact Bool.noConfusion hx
      simpa using this
  refine ⟨hmain, ?_⟩
  intro hpre hmem
  have hinc : strIncludes k p = true := by
    unfold strIncludes
    simp only [decide_eq_true_eq]
    exact hpre.isInfix
  rcases hmain.mp hmem with ⟨-, hfalse⟩
  rw [hinc] at hfalse
  exact Bool.noConfusion hfalse

/-- C9 amended witness: an entry whose key starts with the pattern is removed
by invalidation. -/
theorem clearCache_substring_witness :
    ("professionals" : String) ≠ ""
  ∧ ("professionals|list|1", JsValue.str "v") ∉
      clearCache [("professionals|list|1", JsValue.str "v")] "professionals" :=
  ⟨by decide,
   (clearCache_removes_by_substring
      [("professionals|list|1", JsValue.str "v")] "professionals"
      "professionals|list|1" (JsValue.str "v") (by decide)).2 (by decide)⟩

/-- C10: the hit test is the truthiness of the retrieved value, so a falsy
successful body (null, false, 0, "") is stored on a miss, yet a subsequent
request with the same key is still treated as a miss and re-invokes the
handler. -/
theorem falsy_cached_body_never_hits
    (m : Int) (cond : Request → Bool) (keyFn : Request → String) (ttl : Nat)
    (handler : Request → Nat × JsValue) (st st1 : CacheSt) (req : Request)
    (status : Nat) (body : JsValue)
    (hcond : cond req = true)
    (hh : handler req = (status, body))
    (hstatus : status < 400)
    (hfalsy : truthy body = false)
    (hmiss : lookupCache st (keyFn req) = none)
    (hset : ncSet m st (keyFn req) body = .ok st1) :
    (runCacheMiddleware (ncBackend m) cond keyFn ttl handler st req).cache = st1
  ∧ (runCacheMiddleware (ncBackend m) cond keyFn ttl handler st req).handlerRan
      = true
  ∧ lookupCache st1 (keyFn req) = some body
  ∧ (runCacheMiddleware (ncBackend m) cond keyFn ttl handler st1 req).handlerRan
      = true := by
  have hst1 : st1 = setEntry st (keyFn req) body := by
    unfold ncSet at hset
    by_cases hfull : m > -1 ∧ (st.length : Int) ≥ m
    · rw [if_pos hfull] at hset
      exact Except.noConfusion hset
    · rw [if_neg hfull] at hset
      injection hset with hset
      exact hset.symm
  have hlook : lookupCache st1 (keyFn req) = some body := by
    rw [hst1]
    exact lookup_setEntry_self st (keyFn req) body
  have hgetst : (ncBackend m).get st (keyFn req) = .ok none := by
    simp [ncBackend, hmiss]
  have hrun1 : runCacheMiddleware (ncBackend m) cond keyFn ttl handler st req
      = cacheMiss (ncBackend m) (keyFn req) ttl handler st req := by
    unfold runCacheMiddleware
    rw [hcond]
    simp only [Bool.not_true, Bool.false_eq_true, if_false]
    rw [hgetst]
  have hmiss1 : cacheMiss (ncBackend m) (keyFn req) ttl handler st req
      = { outcome := .ok (status, body), handlerRan := true, cache := st1 } := by
    have hsetb : (ncBackend m).set st (keyFn req) body ttl = .ok st1 := hset
    unfold cacheMiss
    rw [hh]
    simp only [hstatus, if_true]
    rw [hsetb]
  have hrun2 : (runCacheMiddleware (ncBackend m) cond keyFn ttl handler st1
      req).handlerRan = true := by
    unfold runCacheMiddleware
    rw [hcond]
    simp only [Bool.not_true, Bool.false_eq_true, if_false]
    have hget1 : (ncBackend m).get st1 (keyFn req) = .ok (some body) := by
      simp [ncBackend, hlook]
    rw [hget1]
    simp only [hfalsy, Bool.false_eq_true, if_false]
    exact cacheMiss_handlerRan (ncBackend m) (keyFn req) ttl handler st1 req
  rw [hrun1, hmiss1]
  exact ⟨rfl, rfl, hlook, hrun2⟩

/-- C10 witness: a null body at a concrete request is stored but never hit. -/
theorem falsy_cached_body_witness :
    truthy JsValue.null = false
  ∧ (runCacheMiddleware (ncBackend (-1)) (fun _ => true) (fun _ => "k") 0
      (fun _ => (200, JsValue.null)) []
      { url := "/x", method := .get, user := none, query := [],
        body := [] }).handlerRan = true
  ∧ (runCacheMiddleware (ncBackend (-1)) (fun _ => true) (fun _ => "k") 0
      (fun _ => (200, JsValue.null)) [("k", JsValue.null)]
      { url := "/x", method := .get, user := none, query := [],
        body := [] }).handlerRan = true :=
  ⟨by decide,
   (falsy_cached_body_never_hits (-1) (fun _ => true) (fun _ => "k") 0
      (fun _ => (200, JsValue.null)) [] [("k", JsValue.null)]
      { url := "/x", method := .get, user := none, query := [], body := [] }
      200 JsValue.null rfl rfl (by decide) rfl rfl
      (by norm_num [ncSet, setEntry])).2.1,
   (falsy_cached_body_never_hits (-1) (fun _ => true) (fun _ => "k") 0
      (fun _ => (200, JsValue.null)) [] [("k", JsValue.null)]
      { url := "/x", method := .get, user := none, query := [], body := [] }
      200 JsValue.null rfl rfl (by decide) rfl rfl
      (by norm_num [ncSet, setEntry])).2.2.2⟩
